import Mathlib

/-!
Verification of the CaseReview_ListGenerationApp repository.

This file gives a shallow embedding, in Lean 4, of the pure core of the two
Python scripts `CaseReview_ListGenerationApp.py` and
`CaseReview_NotesUploadApp.py`:

* the token manager (`_save_tokens_env`, `_refresh_clio_token`,
  `_get_clio_token`),
* the resilient request wrapper (`_sleep_with_floor`, `_request`),
* the pagination loop (`paginate`),
* the record reconciler inside `build_report_dataframe` (pandas left merges,
  NaN fill and the net-balance computation),
* the final stable sort (`sort_values(..., ascending=False, kind="mergesort")`),
* the attorney splitter (`_clean_attorney`, `split_and_upload_by_attorney`,
  `ATTORNEY_FOLDERS`).

Network, clock and file-system effects are made explicit: every function that
in Python consults the network or the clock takes the observed responses and
times as arguments, and every loop that consumes one HTTP response per
iteration is modelled as a function over the list of responses that the run
receives, in order.  Python floats are modelled as exact rationals (`ℚ`);
the claims under study are about control flow and exact coefficients, not
about rounding.  Python string truthiness (`if s:`) is modelled by
`strTruthy`; `str.strip` by `String.trim`; `int(s)` by `pyInt?`.
-/

namespace CaseReview

/-- Python truthiness of an optional string: `None` and `""` are falsy. -/
def strTruthy : Option String → Bool
  | none => false
  | some s => !s.isEmpty

/-! ### Token manager

From `CaseReview_ListGenerationApp.py` lines 97-131
(`_save_tokens_env`, `_refresh_clio_token`, `_get_clio_token`).
The process-wide globals `CLIO_CLIENT_ID`, `CLIO_CLIENT_SECRET`,
`CLIO_REFRESH_TOKEN`, `_CLIO_ACCESS_TOKEN`, `_CLIO_EXPIRES_AT` are gathered
into an explicit state record. -/

/-- A JSON value in the `expires_in` position of a token response, classified
by whether Python's `float(...)` accepts it: `num q` stands for any value
`float` converts to the number `q` (ints, floats, numeric strings), and
`nonNumeric` for any value on which `float` raises. -/
inductive JVal where
  | num (q : ℚ)
  | nonNumeric
deriving DecidableEq

/-- The parsed JSON body of a `200` response of the OAuth token endpoint.
A field is `none` when the key is absent from the response. -/
structure TokenResp where
  accessToken : Option String
  refreshToken : Option String
  expiresIn : Option JVal
deriving DecidableEq

/-- The process-wide credential state: the module globals
`CLIO_CLIENT_ID`, `CLIO_CLIENT_SECRET`, `CLIO_REFRESH_TOKEN` (each `none`
when the environment variable is unset), `_CLIO_ACCESS_TOKEN` (initialised
to `""` when unset) and `_CLIO_EXPIRES_AT`. -/
structure AuthState where
  clientId : Option String
  clientSecret : Option String
  refreshToken : Option String
  accessToken : String
  expiresAt : ℚ
deriving DecidableEq

/-- `_save_tokens_env(tokens)` at wall-clock time `now`:
`_CLIO_ACCESS_TOKEN = tokens.get("access_token", _CLIO_ACCESS_TOKEN)`;
the refresh token is replaced only when the response carries a truthy one;
`expires_in = tokens.get("expires_in", 0)` and
`_CLIO_EXPIRES_AT = time.time() + float(expires_in)`, with the `except`
branch `time.time() + 3000` when `float` raises. -/
def saveTokensEnv (st : AuthState) (now : ℚ) (tokens : TokenResp) : AuthState :=
  { st with
    accessToken := tokens.accessToken.getD st.accessToken
    refreshToken :=
      if strTruthy tokens.refreshToken then tokens.refreshToken else st.refreshToken
    expiresAt :=
      match tokens.expiresIn.getD (JVal.num 0) with
      | JVal.num q => now + q
      | JVal.nonNumeric => now + 3000 }

/-- Result of a token-manager call.  `configError` is the
`RuntimeError("Missing CLIO_CLIENT_ID/CLIO_CLIENT_SECRET/CLIO_REFRESH_TOKEN.")`
raised by `_refresh_clio_token`; `refreshError s` is the
`RuntimeError("Token refresh failed: ...")` raised when the token endpoint
answers with status `s ≠ 200`; `token t st` is a normal return of the access
token `t` with the (possibly updated) credential state `st`. -/
inductive AuthResult where
  | token (t : String) (st : AuthState)
  | configError
  | refreshError (status : Nat)
deriving DecidableEq

/-- `_refresh_clio_token()` at time `now`, where the token endpoint would
answer with HTTP status `respStatus` and (when `200`) body `respTokens`.
The credential presence check `if not (CLIO_CLIENT_ID and CLIO_CLIENT_SECRET
and CLIO_REFRESH_TOKEN)` precedes the network call. -/
def refreshClioToken (st : AuthState) (now : ℚ) (respStatus : Nat)
    (respTokens : TokenResp) : AuthResult :=
  if !(strTruthy st.clientId && strTruthy st.clientSecret && strTruthy st.refreshToken) then
    .configError
  else if respStatus ≠ 200 then
    .refreshError respStatus
  else
    let st' := saveTokensEnv st now respTokens
    .token st'.accessToken st'

/-- `_get_clio_token()` at time `now`.  Refreshes when
`(not _CLIO_ACCESS_TOKEN) or now >= (_CLIO_EXPIRES_AT or 0)`
(note `x or 0` equals `x` numerically, since only `0.0` is falsy);
otherwise returns the cached access token without touching the network. -/
def getClioToken (st : AuthState) (now : ℚ) (respStatus : Nat)
    (respTokens : TokenResp) : AuthResult :=
  if st.accessToken = "" ∨ st.expiresAt ≤ now then
    refreshClioToken st now respStatus respTokens
  else
    .token st.accessToken st

/-- All three credentials are present and non-empty. -/
def credsPresent (st : AuthState) : Prop :=
  strTruthy st.clientId ∧ strTruthy st.clientSecret ∧ strTruthy st.refreshToken

instance (st : AuthState) : Decidable (credsPresent st) := by
  unfold credsPresent; infer_instance

/-! ### Resilient request wrapper

From `CaseReview_ListGenerationApp.py` lines 92, 137-182
(`GLOBAL_MIN_SLEEP`, `_sleep_with_floor`, `_request`).  The same code appears
verbatim in `CaseReview_NotesUploadApp.py` lines 125-174. -/

/-- An HTTP response as seen by `_request`: its status code, the optional
`Retry-After` header, and the string
`(resp.json() or {}).get("error", {}).get("message", "")` that the 429
branch extracts from the body (so `""` stands for any body without such a
message, including non-JSON bodies whose parse attempt is swallowed by the
surrounding `except`). -/
structure HResp where
  status : Nat
  retryAfter : Option String
  errorMessage : String
deriving DecidableEq

/-- `str.strip()`: drop whitespace from both ends of a character list. -/
def stripChars (cs : List Char) : List Char :=
  ((cs.dropWhile Char.isWhitespace).reverse.dropWhile Char.isWhitespace).reverse

/-- Digit run to a number, e.g. `['1','0','7'] ↦ 107`. -/
def digitsToNat (ds : List Char) : Nat :=
  ds.foldl (fun a d => a * 10 + (d.toNat - 48)) 0

/-- A non-empty all-digit run, as a number. -/
def digits? (ds : List Char) : Option Nat :=
  if !ds.isEmpty && ds.all Char.isDigit then some (digitsToNat ds) else none

/-- Python `int(s)`: parses an optionally signed decimal integer, tolerating
surrounding whitespace; `none` when `int` raises `ValueError` (digit-group
underscores are not modelled). -/
def pyInt? (s : String) : Option Int :=
  match stripChars s.toList with
  | '-' :: ds => (digits? ds).map (fun n => -(n : Int))
  | '+' :: ds => (digits? ds).map (fun n => (n : Int))
  | ds => (digits? ds).map (fun n => (n : Int))

/-- Scanner for `re.search(r"Retry in (\d+)", msg)`: finds the leftmost
occurrence of the literal `"Retry in "` that is followed by at least one
digit and returns the value of the maximal digit run after it. -/
def findRetryInAux : List Char → Option Nat
  | [] => none
  | c :: cs =>
    if List.isPrefixOf "Retry in ".toList (c :: cs) then
      let ds := ((c :: cs).drop 9).takeWhile Char.isDigit
      if ds.isEmpty then findRetryInAux cs else some (digitsToNat ds)
    else findRetryInAux cs

/-- `re.search(r"Retry in (\d+)", msg)` returning `int(m.group(1))`. -/
def findRetryIn (msg : String) : Option Nat :=
  findRetryInAux msg.toList

/-- The 429 branch of `_request` (lines 157-171): `ra = 30`; when the
`Retry-After` header is truthy, `ra = int(header)` with `ValueError`
falling back to `30`; only when the header is absent (or empty) is the body
message searched for `"Retry in N"`. -/
def computeRa (r : HResp) : Int :=
  if strTruthy r.retryAfter then
    match pyInt? (r.retryAfter.getD "") with
    | some n => n
    | none => 30
  else
    match findRetryIn r.errorMessage with
    | some n => (n : Int)
    | none => 30

/-- Python's binary `max` on numbers. -/
def pyMax (a b : ℚ) : ℚ :=
  if a ≤ b then b else a

/-- `_sleep_with_floor(start_ts, retry_after)`: with `elapsed` the time since
the request started and `minSleep` the `GLOBAL_MIN_SLEEP` floor, the time
slept is `wait = max(max(0, minSleep - elapsed), retry_after or 0)` (the
function sleeps only when `wait > 0`, and `wait` is never negative, so the
time slept is exactly `wait`). -/
def sleepWithFloorWait (minSleep elapsed retryAfter : ℚ) : ℚ :=
  pyMax (pyMax 0 (minSleep - elapsed)) retryAfter

/-- One attempt of the `_request` loop: the response the server returned and
how long the request took (`time.time() - t0` at the point where
`_sleep_with_floor` is called). -/
structure Attempt where
  resp : HResp
  elapsed : ℚ
deriving DecidableEq

/-- Result of `_request`.  `response r` is a normal `return resp`;
`authError` is the exception propagating out of `_refresh_clio_token` in the
401 branch; `nameError` is the `NameError` Python would raise on the final
`return resp` when the loop body never ran (`max_tries = 0`). -/
inductive ReqResult where
  | response (r : HResp)
  | authError
  | nameError
deriving DecidableEq

/-- The retry loop of `_request` (lines 148-182), run over the list of
attempts the server answers, in order; the list length plays the role of
`max_tries` (each element is one iteration of `for _ in range(max_tries)`).
`refreshOk` tells whether `_refresh_clio_token` succeeds when the 401 branch
calls it; `backoff` is the current exponential-backoff value (`1` at entry).
Returns the waits performed between attempts and the final result; when the
attempt budget is exhausted the last (failing) response is returned. -/
def requestTrace (refreshOk : Bool) (minSleep : ℚ) (backoff : Nat) :
    List Attempt → Option HResp → List ℚ × ReqResult
  | [], some r => ([], .response r)
  | [], none => ([], .nameError)
  | a :: rest, _ =>
    if a.resp.status = 401 then
      if refreshOk then
        let t := requestTrace refreshOk minSleep backoff rest (some a.resp)
        (sleepWithFloorWait minSleep a.elapsed 1 :: t.1, t.2)
      else
        (sleepWithFloorWait minSleep a.elapsed 1 :: [], .authError)
    else if a.resp.status = 429 then
      let ra := computeRa a.resp
      let t := requestTrace refreshOk minSleep backoff rest (some a.resp)
      (sleepWithFloorWait minSleep a.elapsed (ra : ℚ) :: t.1, t.2)
    else if 500 ≤ a.resp.status ∧ a.resp.status < 600 then
      let t := requestTrace refreshOk minSleep (min (backoff * 2) 60) rest (some a.resp)
      (sleepWithFloorWait minSleep a.elapsed (backoff : ℚ) :: t.1, t.2)
    else
      (sleepWithFloorWait minSleep a.elapsed 0 :: [], .response a.resp)

/-- A status code on which `_request` retries instead of returning. -/
def retryable (s : Nat) : Prop :=
  s = 401 ∨ s = 429 ∨ (500 ≤ s ∧ s < 600)

instance (s : Nat) : Decidable (retryable s) := by
  unfold retryable; infer_instance

/-! ### Pagination

From `CaseReview_ListGenerationApp.py` lines 184-211 (`paginate`); the same
loop appears in `CaseReview_NotesUploadApp.py` lines 179-214. -/

/-- An entry of a response page's `data` list: either a JSON object
(identified here by a numeric id) or any non-dict value. -/
inductive Entry where
  | dict (id : Nat)
  | nondict
deriving DecidableEq

/-- `isinstance(r, dict)` as a partial projection. -/
def entryId? : Entry → Option Nat
  | .dict n => some n
  | .nondict => none

/-- One page answered by `_request` inside `paginate`: its HTTP status, the
`body.get("data", [])` list, and `body.get("meta", {}).get("paging", {})
.get("next")` (the next-page link; `none` or `""` are falsy). -/
structure Page where
  status : Nat
  data : List Entry
  next : Option String
deriving DecidableEq

/-- The `while True:` loop of `paginate`, run over the successive pages the
server answers.  `limit` is `params["limit"]` (the caller's value, defaulted
to `PAGE_LIMIT = 200` by `setdefault`).  Returns the accumulated `all_rows`
(ids of the dict entries, concatenated in page order) together with the
number of pages consumed.  The source's final
`if len(rows) < params["limit"]: break else: break` has `break` in both
branches and is kept verbatim. -/
def paginateGo (limit : Nat) : List Page → List Nat × Nat
  | [] => ([], 0)
  | p :: rest =>
    if p.status ≠ 200 then
      ([], 1)
    else
      let rows := p.data.filterMap entryId?
      if strTruthy p.next then
        let t := paginateGo limit rest
        (rows ++ t.1, t.2 + 1)
      else
        if p.data.length < limit then (rows, 1) else (rows, 1)

/-- `paginate(url, params)` with `params.setdefault("limit", PAGE_LIMIT)`:
the rows it returns for a given answered page sequence. -/
def paginateRows (paramsLimit : Option Nat) (pages : List Page) : List Nat :=
  (paginateGo (paramsLimit.getD 200) pages).1

/-- Modelled from the claim's words, for comparison with the code: the claim
says the loop "terminates exactly when no next-page cursor is returned or a
page arrives shorter than the requested page size", i.e. it stops at the
first page with no cursor or with fewer than `limit` entries. -/
def claimStopsAt (limit : Nat) (p : Page) : Bool :=
  !strTruthy p.next || p.data.length < limit

/-- Modelled from the claim's words: how many pages the loop would consume
if it terminated exactly at the first page satisfying `claimStopsAt`. -/
def claimConsumed (limit : Nat) : List Page → Nat
  | [] => 0
  | p :: rest => if claimStopsAt limit p then 1 else claimConsumed limit rest + 1

/-! ### Record reconciler

From `CaseReview_ListGenerationApp.py` lines 360-494
(`build_report_dataframe`): the three frames built from the fetched rows,
the two pandas left merges (lines 436-441), the numeric NaN fill (lines
444-446) and the net-balance computation (lines 449-451).  The same merge
appears in `CaseReview_NotesUploadApp.py` lines 369-384. -/

/-- A row of `matter_df`: matter id, client id (`None` when the matter has
no client), the already-summed trust balance, and the responsible attorney
name.  Monetary values are exact rationals. -/
structure MRow where
  matterId : Nat
  clientId : Option Nat
  trust : ℚ
  atty : String
deriving DecidableEq

/-- A row of `ocb_df`: client id and coerced outstanding balance. -/
structure OcbRow where
  clientId : Option Nat
  outstanding : ℚ
deriving DecidableEq

/-- A row of `billable_df`: matter id and coerced unbilled amount/hours. -/
structure BillRow where
  matterId : Nat
  unbilled : ℚ
  unbilledHours : ℚ
deriving DecidableEq

/-- A pandas left merge `l.merge(r, on=key, how="left")`: every left row is
paired with every matching right row, and with `none` when no right row
matches. -/
def leftJoin (l : List α) (r : List β) (key : α → β → Bool) : List (α × Option β) :=
  l.flatMap (fun a =>
    let ms := r.filter (key a)
    if ms.isEmpty then [(a, none)] else ms.map (fun b => (a, some b)))

/-- A row of the `combined` frame after the NaN fill and the net-balance
computation: `Net Trust Account Balance = Trust - Outstanding - Unbilled`,
with a missing merge partner contributing `0.0` (`fillna(0.0)`). -/
structure CombinedRow where
  matterId : Nat
  clientId : Option Nat
  trust : ℚ
  atty : String
  outstanding : ℚ
  unbilled : ℚ
  net : ℚ
deriving DecidableEq

/-- Finalisation of one merged row: `fillna(0.0)` on the monetary columns
followed by the net-balance column. -/
def finalizeRow (p : (MRow × Option OcbRow) × Option BillRow) : CombinedRow :=
  let m := p.1.1
  let out := (p.1.2.map OcbRow.outstanding).getD 0
  let unb := (p.2.map BillRow.unbilled).getD 0
  { matterId := m.matterId, clientId := m.clientId, trust := m.trust,
    atty := m.atty, outstanding := out, unbilled := unb,
    net := m.trust - out - unb }

/-- Lines 436-451: `matter_df.merge(ocb_df, on="Client ID", how="left")
.merge(billable_df[["Matter ID", ...]], on="Matter ID", how="left")`,
NaN fill, and the net-balance column. -/
def reconcile (matters : List MRow) (ocb : List OcbRow) (bill : List BillRow) :
    List CombinedRow :=
  (leftJoin (leftJoin matters ocb (fun m o => o.clientId == m.clientId)) bill
      (fun p b => b.matterId == p.1.matterId)).map finalizeRow

/-- The single reconciled row of a matter when each merge key matches at
most one right-hand row: both merges degenerate to `find?` lookups. -/
def mkRow (ocb : List OcbRow) (bill : List BillRow) (m : MRow) : CombinedRow :=
  finalizeRow ((m, ocb.find? (fun o => o.clientId == m.clientId)),
    bill.find? (fun b => b.matterId == m.matterId))

/-! ### Final sort and attorney splitter

From `CaseReview_ListGenerationApp.py` line 493
(`df.sort_values(by="Net Trust Account Balance", ascending=False,
kind="mergesort")` — a stable descending sort) and lines 69-74, 555-590
(`ATTORNEY_FOLDERS`, `_clean_attorney`, `split_and_upload_by_attorney`). -/

/-- A row of the final report as far as the sort and the split observe it:
its `Matter Number`, its `Net Trust Account Balance` and its
`Responsible Attorney`. -/
structure OutRow where
  matterNumber : String
  net : ℚ
  atty : String
deriving DecidableEq

/-- `df.sort_values(by="Net Trust Account Balance", ascending=False,
kind="mergesort")`: a stable merge sort under the descending comparison on
the net balance. -/
def sortByNetDesc (rows : List OutRow) : List OutRow :=
  rows.mergeSort (fun a b => decide (b.net ≤ a.net))

/-- The keys of `ATTORNEY_FOLDERS` (lines 69-74), in order. -/
def attorneyKeys : List String :=
  ["Voorhees, Elizabeth", "Darling, Craig", "Huang, Lily", "Parker, Gabriella"]

/-- `_clean_attorney(s) = (s or "").strip()`. -/
def cleanAttorney (s : String) : String :=
  String.mk (stripChars s.toList)

/-- `split_and_upload_by_attorney` (lines 558-590), its pure content: the
`Responsible Attorney` column is first mapped through `_clean_attorney`;
then, for each key of `ATTORNEY_FOLDERS` in order, the rows equal to that
key are selected, and when the selection is empty the attorney is skipped
(no file is written, nothing is uploaded).  The returned association list
is exactly the sequence of (attorney, rows) files written and uploaded. -/
def splitByAttorney (rows : List OutRow) : List (String × List OutRow) :=
  let cleaned := rows.map (fun r => { r with atty := cleanAttorney r.atty })
  attorneyKeys.filterMap (fun atty =>
    let attyRows := cleaned.filter (fun r => r.atty == atty)
    if attyRows.isEmpty then none else some (atty, attyRows))

/-! ### Helper lemmas -/

theorem le_pyMax_left (a b : ℚ) : a ≤ pyMax a b := by
  unfold pyMax
  split
  next h => exact h
  next h => exact le_refl a

theorem le_pyMax_right (a b : ℚ) : b ≤ pyMax a b := by
  unfold pyMax
  split
  next h => exact le_refl b
  next h => exact le_of_not_le h

theorem credsPresent_bool (st : AuthState) :
    (strTruthy st.clientId && strTruthy st.clientSecret && strTruthy st.refreshToken) = true
      ↔ credsPresent st := by
  unfold credsPresent
  simp [Bool.and_eq_true, and_assoc]

/-- When a filter keeps at most one element, it keeps exactly the first
match that `find?` returns. -/
theorem filter_eq_find?_toList {α : Type} (r : List α) (p : α → Bool)
    (h : (r.filter p).length ≤ 1) : r.filter p = (r.find? p).toList := by
  induction r with
  | nil => simp
  | cons b t ih =>
    by_cases hb : p b
    · rw [List.filter_cons_of_pos hb] at h ⊢
      rw [List.find?_cons_of_pos _ hb]
      have ht : t.filter p = [] := by
        have := Nat.le_of_succ_le_succ h
        exact List.length_eq_zero.mp (Nat.le_zero.mp this)
      simp [ht]
    · rw [List.filter_cons_of_neg hb] at h ⊢
      rw [List.find?_cons_of_neg _ hb]
      exact ih h

/-- A pandas left merge whose right side matches each left row at most once
degenerates to a `find?` lookup per row. -/
theorem leftJoin_eq_map_find {α β : Type} (l : List α) (r : List β) (key : α → β → Bool)
    (h : ∀ a ∈ l, (r.filter (key a)).length ≤ 1) :
    leftJoin l r key = l.map (fun a => (a, r.find? (key a))) := by
  induction l with
  | nil => simp [leftJoin]
  | cons a t ih =>
    have ha := h a (List.mem_cons_self a t)
    have ht : ∀ x ∈ t, (r.filter (key x)).length ≤ 1 := by
      intro x hx
      exact h x (List.mem_cons_of_mem a hx)
    unfold leftJoin at ih ⊢
    rw [List.flatMap_cons, ih ht]
    rw [filter_eq_find?_toList r (key a) ha]
    cases hf : r.find? (key a) with
    | none => simp [hf]
    | some b => simp [hf]

/-- Under the uniqueness hypotheses of the joined tables, the reconciler is
one lookup per matter: one output row per input Case Record. -/
theorem reconcile_eq_map (matters : List MRow) (ocb : List OcbRow) (bill : List BillRow)
    (hocb : ∀ m ∈ matters, (ocb.filter (fun o => o.clientId == m.clientId)).length ≤ 1)
    (hbill : ∀ m ∈ matters, (bill.filter (fun b => b.matterId == m.matterId)).length ≤ 1) :
    reconcile matters ocb bill = matters.map (mkRow ocb bill) := by
  unfold reconcile
  rw [leftJoin_eq_map_find matters ocb _ hocb]
  rw [leftJoin_eq_map_find _ bill _ ?_]
  · rw [List.map_map, List.map_map]
    rfl
  · intro p hp
    rcases List.mem_map.mp hp with ⟨m, hm, hpe⟩
    subst hpe
    exact hbill m hm

/-- Membership in the splitter's output: every produced file belongs to one
of the four fixed attorney keys, is non-empty, and holds exactly the cleaned
rows whose cleaned attorney equals that key. -/
theorem splitByAttorney_mem (rows : List OutRow) (e : String × List OutRow)
    (he : e ∈ splitByAttorney rows) :
    e.1 ∈ attorneyKeys ∧ e.2 ≠ [] ∧
      e.2 = (rows.map (fun r => { r with atty := cleanAttorney r.atty })).filter
        (fun r => r.atty == e.1) := by
  unfold splitByAttorney at he
  rcases List.mem_filterMap.mp he with ⟨k, hk, hke⟩
  by_cases hemp :
      ((rows.map (fun r => { r with atty := cleanAttorney r.atty })).filter
        (fun r => r.atty == k)).isEmpty
  · simp [hemp] at hke
  · rw [if_neg hemp] at hke
    rw [Option.some_inj] at hke
    subst hke
    refine ⟨hk, ?_, rfl⟩
    intro hnil
    apply hemp
    rw [List.isEmpty_iff]
    exact hnil

/-- Rows inside any split file carry exactly the key of that file. -/
theorem splitByAttorney_row_atty (rows : List OutRow) (e : String × List OutRow)
    (he : e ∈ splitByAttorney rows) : ∀ x ∈ e.2, x.atty = e.1 := by
  intro x hx
  rcases splitByAttorney_mem rows e he with ⟨-, -, hfil⟩
  rw [hfil] at hx
  exact beq_iff_eq.mp (List.mem_filter.mp hx).2

/-! ### Claim C7 -/

/-- C7, counterexample to the claim as stated: a `_get_clio_token()` call
with `CLIO_CLIENT_ID` absent but a non-empty cached access token whose
expiry watermark lies in the future returns the cached token and does not
raise the configuration error, contradicting "for every call ... when any
of client id, client secret, or refresh token is absent, the call fails
with a configuration error". -/
theorem claim_C7_cex :
    getClioToken ⟨none, some "sec", some "ref", "tok", 10⟩ 5 200 ⟨none, none, none⟩
        = .token "tok" ⟨none, some "sec", some "ref", "tok", 10⟩ ∧
      getClioToken ⟨none, some "sec", some "ref", "tok", 10⟩ 5 200 ⟨none, none, none⟩
        ≠ .configError := by
  constructor
  · decide
  · decide

/-- C7 as amended: whenever `_get_clio_token` actually needs a refresh (the
cached token is empty or the expiry watermark has passed) and any of client
id, client secret, or refresh token is absent, the call fails with the
configuration error before any network operation; conversely, when all
three are present the configuration error is never raised (for any clock
value and any token-endpoint answer). -/
theorem claim_C7 (st : AuthState) (now : ℚ) (respStatus : Nat) (respTokens : TokenResp) :
    ((st.accessToken = "" ∨ st.expiresAt ≤ now) → ¬ credsPresent st →
      getClioToken st now respStatus respTokens = .configError) ∧
    (credsPresent st → getClioToken st now respStatus respTokens ≠ .configError) := by
  constructor
  · intro href hcreds
    unfold getClioToken
    rw [if_pos href]
    unfold refreshClioToken
    rw [if_pos ?_]
    rw [Bool.not_eq_true']
    rw [Bool.eq_false_iff]
    intro hc
    exact hcreds ((credsPresent_bool st).mp hc)
  · intro hcreds
    unfold getClioToken
    split
    · unfold refreshClioToken
      rw [if_neg ?_]
      · split
        · intro h
          cases h
        · intro h
          cases h
      · rw [Bool.not_eq_true', Bool.not_eq_false]
        exact (credsPresent_bool st).mpr hcreds
    · intro h
      cases h

/-- C7 witness: both directions of the amended claim at concrete states. -/
theorem claim_C7_witness :
    getClioToken ⟨none, some "sec", some "ref", "", 0⟩ 5 200 ⟨some "t", none, none⟩
        = .configError ∧
      getClioToken ⟨some "id", some "sec", some "ref", "", 0⟩ 5 404 ⟨some "t", none, none⟩
        ≠ .configError := by
  constructor
  · exact (claim_C7 ⟨none, some "sec", some "ref", "", 0⟩ 5 200 ⟨some "t", none, none⟩).1
      (Or.inl rfl) (by decide)
  · exact (claim_C7 ⟨some "id", some "sec", some "ref", "", 0⟩ 5 404 ⟨some "t", none, none⟩).2
      (by decide)

/-! ### Claim C10 -/

/-- C10: when a token refresh response omits `expires_in`,
`_save_tokens_env` sets the expiry watermark to the save time itself
(`now + 0`), so any later `_get_clio_token` call takes the refresh branch;
when `expires_in` is present but not convertible by `float`, the watermark
becomes the save time plus `3000`; and when the response omits
`access_token` the previously cached access token is kept. -/
theorem claim_C10 (st : AuthState) (now : ℚ) (tokens : TokenResp) :
    (tokens.expiresIn = none →
      (saveTokensEnv st now tokens).expiresAt = now ∧
      ∀ now' respStatus respTokens, now ≤ now' →
        getClioToken (saveTokensEnv st now tokens) now' respStatus respTokens =
          refreshClioToken (saveTokensEnv st now tokens) now' respStatus respTokens) ∧
    (tokens.expiresIn = some JVal.nonNumeric →
      (saveTokensEnv st now tokens).expiresAt = now + 3000) ∧
    (tokens.accessToken = none →
      (saveTokensEnv st now tokens).accessToken = st.accessToken) := by
  refine ⟨?_, ?_, ?_⟩
  · intro hnone
    have hexp : (saveTokensEnv st now tokens).expiresAt = now := by
      unfold saveTokensEnv
      rw [hnone]
      simp
    refine ⟨hexp, ?_⟩
    intro now' respStatus respTokens hle
    have hle' : (saveTokensEnv st now tokens).expiresAt ≤ now' := by
      rw [hexp]
      exact hle
    unfold getClioToken
    rw [if_pos (Or.inr hle')]
  · intro hnn
    unfold saveTokensEnv
    rw [hnn]
    rfl
  · intro hnone
    unfold saveTokensEnv
    rw [hnone]
    rfl

/-- C10 witness: the three branches at concrete inputs. -/
theorem claim_C10_witness :
    (saveTokensEnv ⟨some "i", some "s", some "r", "tok", 7⟩ 100 ⟨some "t2", none, none⟩).expiresAt
        = 100 ∧
      getClioToken (saveTokensEnv ⟨some "i", some "s", some "r", "tok", 7⟩ 100 ⟨some "t2", none, none⟩)
          150 503 ⟨none, none, none⟩
        = refreshClioToken
            (saveTokensEnv ⟨some "i", some "s", some "r", "tok", 7⟩ 100 ⟨some "t2", none, none⟩)
            150 503 ⟨none, none, none⟩ ∧
      (saveTokensEnv ⟨some "i", some "s", some "r", "tok", 7⟩ 100
          ⟨some "t2", none, some JVal.nonNumeric⟩).expiresAt = 3100 ∧
      (saveTokensEnv ⟨some "i", some "s", some "r", "tok", 7⟩ 100
          ⟨none, none, some (JVal.num 60)⟩).accessToken = "tok" := by
  refine ⟨?_, ?_, ?_, ?_⟩
  · exact ((claim_C10 ⟨some "i", some "s", some "r", "tok", 7⟩ 100 ⟨some "t2", none, none⟩).1
      rfl).1
  · exact ((claim_C10 ⟨some "i", some "s", some "r", "tok", 7⟩ 100 ⟨some "t2", none, none⟩).1
      rfl).2 150 503 ⟨none, none, none⟩ (by norm_num)
  · have h := (claim_C10 ⟨some "i", some "s", some "r", "tok", 7⟩ 100
      ⟨some "t2", none, some JVal.nonNumeric⟩).2.1 rfl
    rw [h]
    norm_num
  · exact (claim_C10 ⟨some "i", some "s", some "r", "tok", 7⟩ 100
      ⟨none, none, some (JVal.num 60)⟩).2.2 rfl

/-! ### Claim C6 -/

/-- Auxiliary: on a retryable response the loop proceeds to the next
attempt (with some new backoff value), carrying the response along. -/
theorem requestTrace_cons_snd (m : ℚ) (bo : Nat) (a : Attempt) (rest : List Attempt)
    (lastR : Option HResp) (h : retryable a.resp.status) :
    ∃ bo', (requestTrace true m bo (a :: rest) lastR).2
      = (requestTrace true m bo' rest (some a.resp)).2 := by
  rcases h with h401 | h429 | h5xx
  · refine ⟨bo, ?_⟩
    rw [requestTrace, if_pos h401, if_pos rfl]
  · refine ⟨bo, ?_⟩
    have hne : ¬ a.resp.status = 401 := by omega
    rw [requestTrace, if_neg hne, if_pos h429]
  · refine ⟨min (bo * 2) 60, ?_⟩
    have hne1 : ¬ a.resp.status = 401 := by omega
    have hne2 : ¬ a.resp.status = 429 := by omega
    rw [requestTrace, if_neg hne1, if_neg hne2, if_pos h5xx]

/-- Auxiliary: over any non-empty attempt list whose responses are all
retryable (401/429/5xx), the `_request` loop (with a succeeding token
refresh) ends by returning the last response, whatever the floor, the
current backoff and the `resp` variable from earlier iterations. -/
theorem requestTrace_all_retryable (minSleep : ℚ) :
    ∀ (attempts : List Attempt) (backoff : Nat) (lastR : Option HResp)
      (h : attempts ≠ []),
      (∀ a ∈ attempts, retryable a.resp.status) →
      (requestTrace true minSleep backoff attempts lastR).2 =
        .response (attempts.getLast h).resp := by
  intro attempts
  induction attempts with
  | nil => intro backoff lastR h _; exact absurd rfl h
  | cons a rest ih =>
    intro backoff lastR h hall
    have ha : retryable a.resp.status := hall a (List.mem_cons_self a rest)
    obtain ⟨bo', hstep⟩ := requestTrace_cons_snd minSleep backoff a rest lastR ha
    cases rest with
    | nil =>
      rw [hstep]
      rfl
    | cons b t =>
      have hrest : ∀ x ∈ b :: t, retryable x.resp.status := by
        intro x hx
        exact hall x (List.mem_cons_of_mem a hx)
      have hbt : (b :: t : List Attempt) ≠ [] := by simp
      rw [List.getLast_cons hbt, hstep]
      exact ih bo' (some a.resp) hbt hrest

/-- C6: when every attempt of a `_request` call ends in a retryable
condition (401, 429 or 5xx) and the attempt budget (`max_tries`, the length
of the attempt list, default 7) is exhausted, the function returns the last
failing response instead of raising, so the caller must inspect the status
code. -/
theorem claim_C6 (minSleep : ℚ) (backoff : Nat) (attempts : List Attempt)
    (h : attempts ≠ [])
    (hall : ∀ a ∈ attempts, retryable a.resp.status) :
    (requestTrace true minSleep backoff attempts none).2 =
      .response (attempts.getLast h).resp :=
  requestTrace_all_retryable minSleep attempts backoff none h hall

/-- C6 witness: seven attempts (the default `max_tries`), all retryable,
return the seventh response. -/
theorem claim_C6_witness :
    (requestTrace true 0 1
        [⟨⟨401, none, ""⟩, 0⟩, ⟨⟨429, none, ""⟩, 0⟩, ⟨⟨500, none, ""⟩, 0⟩,
          ⟨⟨503, none, ""⟩, 0⟩, ⟨⟨429, none, ""⟩, 0⟩, ⟨⟨599, none, ""⟩, 0⟩,
          ⟨⟨502, some "x", "boom"⟩, 0⟩] none).2 =
      .response ⟨502, some "x", "boom"⟩ := by
  have h := claim_C6 0 1
    [⟨⟨401, none, ""⟩, 0⟩, ⟨⟨429, none, ""⟩, 0⟩, ⟨⟨500, none, ""⟩, 0⟩,
      ⟨⟨503, none, ""⟩, 0⟩, ⟨⟨429, none, ""⟩, 0⟩, ⟨⟨599, none, ""⟩, 0⟩,
      ⟨⟨502, some "x", "boom"⟩, 0⟩] (by decide) (by decide)
  exact h

/-! ### Claim C5 -/

/-- Modelled from the claim's words, for comparison with the code: the
claimed wait floor W for a 429 response — "the integer Retry-After header
value if present and parseable, else the N parsed from a 'Retry in N'
pattern in the error message body, else 30". -/
def claimRetryW (r : HResp) : Int :=
  match r.retryAfter with
  | some s =>
    match pyInt? s with
    | some n => n
    | none =>
      match findRetryIn r.errorMessage with
      | some n => (n : Int)
      | none => 30
  | none =>
    match findRetryIn r.errorMessage with
    | some n => (n : Int)
    | none => 30

/-- C5, counterexample to the claim as stated: on a 429 whose `Retry-After`
header is present but unparseable (`"soon"`) and whose error message says
`"Retry in 100"`, the code never consults the body (the 429 branch falls
back to 30 inside the header's `except`), so with floor `0.25` and elapsed
time `1` the wait before the next attempt is `30` seconds — strictly less
than the `max(floor remainder, W) = 100` the claim requires. -/
theorem claim_C5_cex :
    computeRa ⟨429, some "soon", "Retry in 100"⟩ = 30 ∧
      claimRetryW ⟨429, some "soon", "Retry in 100"⟩ = 100 ∧
      (requestTrace true (1/4) 1
          [⟨⟨429, some "soon", "Retry in 100"⟩, 1⟩, ⟨⟨200, none, ""⟩, 0⟩] none).1.headD 0 = 30 ∧
      ¬ ((claimRetryW ⟨429, some "soon", "Retry in 100"⟩ : ℚ) ≤ 30) := by
  refine ⟨by decide, by decide, ?_, ?_⟩
  · have hra : computeRa ⟨429, some "soon", "Retry in 100"⟩ = 30 := by decide
    rw [requestTrace]
    norm_num [hra, sleepWithFloorWait, pyMax]
  · have hw : claimRetryW ⟨429, some "soon", "Retry in 100"⟩ = 100 := by decide
    rw [hw]
    norm_num

/-- C5 as amended: on a 429 attempt the client waits exactly
`max(floor remainder, W)` seconds before the next attempt, where W is the
integer `Retry-After` header value when the header is present and
parseable, `30` when it is present but unparseable (the body is not
consulted), the N of a `"Retry in N"` pattern in the error message body
when the header is absent, and `30` otherwise; in particular the wait is at
least W and at least the floor remainder, a parseable header `Retry-After: n`
gives W = n, and when the following attempt returns 200 the request returns
that response. -/
theorem claim_C5 (minSleep : ℚ) (a a2 : Attempt) (backoff : Nat)
    (h429 : a.resp.status = 429) (h200 : a2.resp.status = 200) :
    (requestTrace true minSleep backoff [a, a2] none).2 = .response a2.resp ∧
    (requestTrace true minSleep backoff [a, a2] none).1.headD 0 =
      sleepWithFloorWait minSleep a.elapsed ((computeRa a.resp : Int) : ℚ) ∧
    ((computeRa a.resp : Int) : ℚ) ≤
      sleepWithFloorWait minSleep a.elapsed ((computeRa a.resp : Int) : ℚ) ∧
    pyMax 0 (minSleep - a.elapsed) ≤
      sleepWithFloorWait minSleep a.elapsed ((computeRa a.resp : Int) : ℚ) ∧
    (∀ s n, a.resp.retryAfter = some s → s.isEmpty = false → pyInt? s = some n →
      computeRa a.resp = n) := by
  have hne401 : ¬ a.resp.status = 401 := by omega
  have hne401' : ¬ a2.resp.status = 401 := by omega
  have hne429' : ¬ a2.resp.status = 429 := by omega
  have hne5xx' : ¬ (500 ≤ a2.resp.status ∧ a2.resp.status < 600) := by omega
  have hstep : requestTrace true minSleep backoff [a, a2] none =
      (sleepWithFloorWait minSleep a.elapsed ((computeRa a.resp : Int) : ℚ) ::
          (requestTrace true minSleep backoff [a2] (some a.resp)).1,
        (requestTrace true minSleep backoff [a2] (some a.resp)).2) := by
    rw [requestTrace, if_neg hne401, if_pos h429]
  have hstep2 : requestTrace true minSleep backoff [a2] (some a.resp) =
      ([sleepWithFloorWait minSleep a2.elapsed 0], .response a2.resp) := by
    rw [requestTrace, if_neg hne401', if_neg hne429', if_neg hne5xx']
  refine ⟨?_, ?_, ?_, ?_, ?_⟩
  · rw [hstep, hstep2]
  · rw [hstep]
    rfl
  · exact le_pyMax_right _ _
  · exact le_pyMax_left _ _
  · intro s n hs hne hparse
    unfold computeRa
    rw [hs]
    simp only [strTruthy, hne, Bool.not_false, if_pos]
    rw [Option.getD_some, hparse]

/-- C5 witness: a 429 with `Retry-After: 5` waits at least 5 seconds before
the next attempt, and the request succeeds when that attempt returns 200. -/
theorem claim_C5_witness :
    (requestTrace true (1/4) 1 [⟨⟨429, some "5", ""⟩, 0⟩, ⟨⟨200, none, ""⟩, 0⟩] none).2 =
        .response ⟨200, none, ""⟩ ∧
      (5 : ℚ) ≤
        (requestTrace true (1/4) 1 [⟨⟨429, some "5", ""⟩, 0⟩, ⟨⟨200, none, ""⟩, 0⟩] none).1.headD 0 := by
  have h := claim_C5 (1/4) ⟨⟨429, some "5", ""⟩, 0⟩ ⟨⟨200, none, ""⟩, 0⟩ 1 rfl rfl
  have hra : computeRa ⟨429, some "5", ""⟩ = 5 := by decide
  refine ⟨h.1, ?_⟩
  have hhead := h.2.1
  rw [hhead, hra]
  exact h.2.2.1.trans_eq (by rw [hra])

/-! ### Claim C4 -/

/-- C4, counterexample to the claim as stated: a first page that is shorter
than the requested page size (1 entry against a limit of 200) but carries a
next-page cursor does **not** terminate the loop — the code follows the
cursor and consumes a second page, whereas the claim's termination
condition ("no cursor or short page") would stop after the first page. -/
theorem claim_C4_cex :
    (paginateGo 200 [⟨200, [.dict 1], some "page2"⟩, ⟨200, [.dict 2, .nondict], none⟩]).2 = 2 ∧
      claimConsumed 200 [⟨200, [.dict 1], some "page2"⟩, ⟨200, [.dict 2, .nondict], none⟩] = 1 ∧
      claimStopsAt 200 ⟨200, [.dict 1], some "page2"⟩ = true ∧
      (paginateGo 200 [⟨200, [.dict 1], some "page2"⟩, ⟨200, [.dict 2, .nondict], none⟩]).1
        = [1, 2] := by
  refine ⟨by decide, by decide, by decide, by decide⟩

/-- C4 as amended: the loop terminates exactly when a page carries no
next-page cursor (the short-page comparison is dead code: both of its
branches `break`, and a page bearing a cursor is always followed,
regardless of its size); until then it follows embedded next links
verbatim, aggregates the dict entries of each page in concatenation order,
and silently drops non-dict entries. -/
theorem claim_C4 (limit : Nat) (front : List Page) (p : Page) (rest : List Page)
    (hfront : ∀ q ∈ front, q.status = 200 ∧ strTruthy q.next = true)
    (hp : p.status = 200) (hn : strTruthy p.next = false) :
    paginateGo limit (front ++ p :: rest)
      = (((front ++ [p]).map (fun q => q.data.filterMap entryId?)).flatten,
          front.length + 1) := by
  induction front with
  | nil =>
    rw [List.nil_append, paginateGo]
    rw [if_neg (fun hne => hne hp)]
    rw [if_neg ?_]
    · rw [ite_self]
      simp
    · rw [hn]
      simp
  | cons q front' ih =>
    have hq := hfront q (List.mem_cons_self q front')
    rw [List.cons_append, paginateGo]
    rw [if_neg (fun hne => hne hq.1)]
    rw [if_pos hq.2]
    have ih' := ih (fun x hx => hfront x (List.mem_cons_of_mem q hx))
    rw [ih']
    simp

/-- First page of the 3-page pagination scenario: 200 records, next link. -/
def scenPage1 : Page :=
  ⟨200, (List.range 200).map Entry.dict, some "page2"⟩

/-- Second page of the pagination scenario: 200 records, next link. -/
def scenPage2 : Page :=
  ⟨200, (List.range' 200 200).map Entry.dict, some "page3"⟩

/-- Third page of the pagination scenario: 50 records, no next link. -/
def scenPage3 : Page :=
  ⟨200, (List.range' 400 50).map Entry.dict, none⟩

set_option maxRecDepth 40000

/-- C4 witness: a 3-page cursor-link sequence with pages of sizes 200, 200
and 50 yields exactly the 450 records 0..449 in concatenation order,
duplicate-free, consuming exactly the 3 pages. -/
theorem claim_C4_witness :
    (paginateGo 200 [scenPage1, scenPage2, scenPage3]).1 = List.range 450 ∧
      (paginateGo 200 [scenPage1, scenPage2, scenPage3]).1.length = 450 ∧
      (paginateGo 200 [scenPage1, scenPage2, scenPage3]).1.Nodup ∧
      (paginateGo 200 [scenPage1, scenPage2, scenPage3]).2 = 3 := by
  have h : paginateGo 200 [scenPage1, scenPage2, scenPage3]
      = ((([scenPage1, scenPage2] ++ [scenPage3]).map
          (fun q => q.data.filterMap entryId?)).flatten, 3) :=
    claim_C4 200 [scenPage1, scenPage2] scenPage3 [] (by decide) rfl rfl
  rw [h]
  have hrows : (([scenPage1, scenPage2] ++ [scenPage3]).map
      (fun q => q.data.filterMap entryId?)).flatten = List.range 450 := by decide
  rw [hrows]
  refine ⟨rfl, by simp, List.nodup_range 450, rfl⟩

/-! ### Claim C2 -/

/-- C2: with at most one Client Balance Record per client key and at most
one Unbilled Record per case key, the reconciled output has exactly one row
per fetched Case Record (the row `mkRow` of that matter, in input order —
no case is dropped or turned into an error), and a matter with no matching
client-balance and no matching unbilled record gets zeros for the missing
monetary fields, so its net balance equals its trust balance. -/
theorem claim_C2 (matters : List MRow) (ocb : List OcbRow) (bill : List BillRow)
    (hocb : ∀ m ∈ matters, (ocb.filter (fun o => o.clientId == m.clientId)).length ≤ 1)
    (hbill : ∀ m ∈ matters, (bill.filter (fun b => b.matterId == m.matterId)).length ≤ 1) :
    reconcile matters ocb bill = matters.map (mkRow ocb bill) ∧
    (reconcile matters ocb bill).length = matters.length ∧
    ∀ m ∈ matters,
      ocb.find? (fun o => o.clientId == m.clientId) = none →
      bill.find? (fun b => b.matterId == m.matterId) = none →
      (mkRow ocb bill m).net = m.trust ∧ (mkRow ocb bill m).outstanding = 0 ∧
        (mkRow ocb bill m).unbilled = 0 := by
  have hmap := reconcile_eq_map matters ocb bill hocb hbill
  refine ⟨hmap, ?_, ?_⟩
  · rw [hmap, List.length_map]
  · intro m hm h1 h2
    unfold mkRow finalizeRow
    rw [h1, h2]
    simp

/-- C2 witness: one matter with no matching balance or unbilled record is
reconciled to a single zero-filled row whose net equals its trust. -/
theorem claim_C2_witness :
    reconcile [⟨1, some 10, 50, "X"⟩] [⟨some 99, 400⟩] [⟨2, 100, 0⟩]
        = [mkRow [⟨some 99, 400⟩] [⟨2, 100, 0⟩] ⟨1, some 10, 50, "X"⟩] ∧
      (reconcile [⟨1, some 10, 50, "X"⟩] [⟨some 99, 400⟩] [⟨2, 100, 0⟩]).length = 1 ∧
      (mkRow [⟨some 99, 400⟩] [⟨2, 100, 0⟩] ⟨1, some 10, 50, "X"⟩).net = 50 := by
  have h := claim_C2 [⟨1, some 10, 50, "X"⟩] [⟨some 99, 400⟩] [⟨2, 100, 0⟩]
    (by decide) (by decide)
  refine ⟨h.1, h.2.1, ?_⟩
  exact (h.2.2 ⟨1, some 10, 50, "X"⟩ (by decide) (by decide) (by decide)).1

/-! ### Claim C1 -/

/-- The two cases of client 10 in the end-to-end scenario. -/
def exMatters : List MRow :=
  [⟨1, some 10, 0, "X"⟩, ⟨2, some 10, 0, "X"⟩]

/-- Client 10's outstanding balance record in the scenario. -/
def exOcb : List OcbRow :=
  [⟨some 10, 400⟩]

/-- The per-case unbilled amounts (100 and 300) in the scenario. -/
def exBill : List BillRow :=
  [⟨1, 100, 0⟩, ⟨2, 300, 0⟩]

/-- C1, counterexample to the claim as stated: for client 10 with two cases
of unbilled amounts 100 and 300 and outstanding balance 400, the code
attributes the **full** 400 to each case — the per-case outstanding values
are [400, 400] (not the claimed [100, 300]) and they sum to 800, not to the
client's outstanding balance 400. -/
theorem claim_C1_cex :
    (reconcile exMatters exOcb exBill).map CombinedRow.outstanding = [400, 400] ∧
      ((reconcile exMatters exOcb exBill).map CombinedRow.outstanding).sum = 800 ∧
      ((400 : ℚ) + 400 ≠ 400) ∧
      (([400, 400] : List ℚ) ≠ [100, 300]) := by
  have h1 : (reconcile exMatters exOcb exBill).map CombinedRow.outstanding = [400, 400] := by
    decide
  refine ⟨h1, ?_, by norm_num, by decide⟩
  rw [h1]
  norm_num [List.sum_cons, List.sum_nil]

/-- Per-matter form of the attribution fact: when the client's balance
record is found, the reconciled row of any of that client's matters
carries the full outstanding balance. -/
theorem mkRow_outstanding_of_client (ocb : List OcbRow) (bill : List BillRow)
    (m : MRow) (c : Nat) (o : OcbRow) (hmc : m.clientId = some c)
    (ho : ocb.find? (fun x => x.clientId == some c) = some o) :
    (mkRow ocb bill m).outstanding = o.outstanding := by
  unfold mkRow finalizeRow
  rw [show (fun x : OcbRow => x.clientId == m.clientId)
      = (fun x : OcbRow => x.clientId == some c) from by rw [hmc]]
  rw [ho]
  rfl

/-- Auxiliary: mapping the attributed outstanding over matters that all
belong to client `c` yields the client's balance repeated once per case. -/
theorem map_outstanding_replicate (ocb : List OcbRow) (bill : List BillRow)
    (c : Nat) (o : OcbRow)
    (ho : ocb.find? (fun x => x.clientId == some c) = some o) :
    ∀ (l : List MRow), (∀ m ∈ l, m.clientId = some c) →
      l.map (fun m => (mkRow ocb bill m).outstanding)
        = List.replicate l.length o.outstanding := by
  intro l
  induction l with
  | nil => intro _; rfl
  | cons m t ih =>
    intro hall
    rw [List.map_cons, List.length_cons, List.replicate_succ]
    rw [mkRow_outstanding_of_client ocb bill m c o (hall m (List.mem_cons_self m t)) ho]
    rw [ih (fun x hx => hall x (List.mem_cons_of_mem m hx))]

/-- C1 as amended: the reconciler performs no allocation — under the join
uniqueness hypotheses, every case of a client whose balance record exists
is attributed the client's **full** outstanding balance, so the attributed
values over the client's cases are the balance repeated once per case and
they sum to case_count × outstanding_balance (in the scenario, each of the
2 cases receives 400, for a total of 800). -/
theorem claim_C1 (matters : List MRow) (ocb : List OcbRow) (bill : List BillRow)
    (hocb : ∀ m ∈ matters, (ocb.filter (fun o => o.clientId == m.clientId)).length ≤ 1)
    (hbill : ∀ m ∈ matters, (bill.filter (fun b => b.matterId == m.matterId)).length ≤ 1)
    (c : Nat) (o : OcbRow)
    (ho : ocb.find? (fun x => x.clientId == some c) = some o) :
    (∀ m ∈ matters, m.clientId = some c →
        (mkRow ocb bill m).outstanding = o.outstanding) ∧
    ((reconcile matters ocb bill).filter (fun row => row.clientId == some c)).map
        CombinedRow.outstanding
      = List.replicate ((matters.filter (fun m => m.clientId == some c)).length)
          o.outstanding ∧
    (((reconcile matters ocb bill).filter (fun row => row.clientId == some c)).map
        CombinedRow.outstanding).sum
      = ((matters.filter (fun m => m.clientId == some c)).length : ℚ) * o.outstanding := by
  have hmap := reconcile_eq_map matters ocb bill hocb hbill
  have hfil : (reconcile matters ocb bill).filter (fun row => row.clientId == some c)
      = (matters.filter (fun m => m.clientId == some c)).map (mkRow ocb bill) := by
    rw [hmap, List.filter_map]
    rfl
  have hrep : ((reconcile matters ocb bill).filter
        (fun row => row.clientId == some c)).map CombinedRow.outstanding
      = List.replicate ((matters.filter (fun m => m.clientId == some c)).length)
          o.outstanding := by
    rw [hfil, List.map_map]
    refine map_outstanding_replicate ocb bill c o ho _ ?_
    intro m hm
    exact beq_iff_eq.mp (List.mem_filter.mp hm).2
  refine ⟨?_, hrep, ?_⟩
  · intro m hm hmc
    exact mkRow_outstanding_of_client ocb bill m c o hmc ho
  · rw [hrep, List.sum_replicate, nsmul_eq_mul]

/-- C1 witness: the end-to-end scenario — client 10, two cases with
unbilled 100 and 300, outstanding balance 400 — where each case is
attributed 400 and the attributed values sum to 800. -/
theorem claim_C1_witness :
    (mkRow exOcb exBill ⟨1, some 10, 0, "X"⟩).outstanding = 400 ∧
      ((reconcile exMatters exOcb exBill).filter
          (fun row => row.clientId == some 10)).map CombinedRow.outstanding
        = List.replicate 2 400 ∧
      (((reconcile exMatters exOcb exBill).filter
          (fun row => row.clientId == some 10)).map CombinedRow.outstanding).sum
        = 800 := by
  have h := claim_C1 exMatters exOcb exBill (by decide) (by decide) 10 ⟨some 10, 400⟩
    (by decide)
  refine ⟨h.1 ⟨1, some 10, 0, "X"⟩ (by decide) rfl, h.2.1, ?_⟩
  have hlen : ((exMatters.filter (fun m => m.clientId == some 10)).length : ℚ) = 2 := by
    norm_num [exMatters, List.filter]
  rw [h.2.2, hlen]
  norm_num

/-! ### Claim C8 -/

/-- C8: the final report rows are sorted by net trust account balance in
descending order, the output is a permutation of the input (no row gained
or lost), and the sort is stable: any two rows in net-descending relative
order (in particular any two rows with equal net balance) keep in the
output the relative order they had in the input. -/
theorem claim_C8 (rows : List OutRow) :
    (sortByNetDesc rows).Perm rows ∧
    (sortByNetDesc rows).Pairwise (fun a b => b.net ≤ a.net) ∧
    ∀ a b : OutRow, b.net ≤ a.net → List.Sublist [a, b] rows →
      List.Sublist [a, b] (sortByNetDesc rows) := by
  have htrans : ∀ (x y z : OutRow),
      decide (y.net ≤ x.net) = true → decide (z.net ≤ y.net) = true →
      decide (z.net ≤ x.net) = true := by
    intro x y z h1 h2
    simp only [decide_eq_true_eq] at h1 h2 ⊢
    exact le_trans h2 h1
  have htotal : ∀ (x y : OutRow),
      (decide (y.net ≤ x.net) || decide (x.net ≤ y.net)) = true := by
    intro x y
    simp only [Bool.or_eq_true, decide_eq_true_eq]
    exact le_total y.net x.net
  refine ⟨List.mergeSort_perm rows _, ?_, ?_⟩
  · have hs := List.sorted_mergeSort htrans htotal rows
    exact hs.imp (fun h => of_decide_eq_true h)
  · intro a b hab hsub
    refine List.sublist_mergeSort htrans htotal ?_ hsub
    refine List.Pairwise.cons ?_ (List.pairwise_singleton _ _)
    intro y hy
    rw [List.mem_singleton.mp hy]
    exact decide_eq_true hab

/-- C8 witness: two rows with equal net balance 5 keep their input order in
the sorted output (stability at a concrete tie). -/
theorem claim_C8_witness :
    List.Sublist [⟨"A", 5, ""⟩, ⟨"B", 5, ""⟩]
      (sortByNetDesc [⟨"A", 5, ""⟩, ⟨"B", 5, ""⟩, ⟨"C", 7, ""⟩]) :=
  (claim_C8 [⟨"A", 5, ""⟩, ⟨"B", 5, ""⟩, ⟨"C", 7, ""⟩]).2.2
    ⟨"A", 5, ""⟩ ⟨"B", 5, ""⟩ (le_refl (5 : ℚ))
    (List.Sublist.cons₂ _ (List.Sublist.cons₂ _ (List.nil_sublist [⟨"C", 7, ""⟩])))

/-! ### Claim C9 -/

/-- C9: the splitter produces a file only for the four attorney names that
key `ATTORNEY_FOLDERS`, matching rows by exact string equality after
whitespace trimming: every file's rows carry exactly its attorney key; a
row whose trimmed Responsible Attorney is not one of the four keys appears
in no split file; and a listed attorney with zero matching rows gets no
file (and hence no upload). -/
theorem claim_C9 (rows : List OutRow) :
    (∀ e ∈ splitByAttorney rows,
        e.1 ∈ attorneyKeys ∧ e.2 ≠ [] ∧ ∀ x ∈ e.2, x.atty = e.1) ∧
    (∀ r : OutRow, cleanAttorney r.atty ∉ attorneyKeys →
        ∀ e ∈ splitByAttorney rows, ∀ x ∈ e.2,
          x ≠ { r with atty := cleanAttorney r.atty }) ∧
    (∀ k ∈ attorneyKeys,
        rows.filter (fun r => cleanAttorney r.atty == k) = [] →
        ∀ e ∈ splitByAttorney rows, e.1 ≠ k) := by
  refine ⟨?_, ?_, ?_⟩
  · intro e he
    rcases splitByAttorney_mem rows e he with ⟨hkey, hne, -⟩
    exact ⟨hkey, hne, splitByAttorney_row_atty rows e he⟩
  · intro r hr e he x hx hxr
    have hatty : x.atty = e.1 := splitByAttorney_row_atty rows e he x hx
    have hkey : e.1 ∈ attorneyKeys := (splitByAttorney_mem rows e he).1
    apply hr
    rw [show cleanAttorney r.atty = x.atty from by rw [hxr], hatty]
    exact hkey
  · intro k hk hfil e he hek
    rcases splitByAttorney_mem rows e he with ⟨-, hne, hrows⟩
    apply hne
    rw [hrows, hek]
    rw [List.filter_map]
    rw [show rows.filter ((fun x : OutRow => x.atty == k) ∘
        (fun r : OutRow => { r with atty := cleanAttorney r.atty }))
      = rows.filter (fun r => cleanAttorney r.atty == k) from rfl]
    rw [hfil]
    rfl

/-- C9 witness: with one row for `" Darling, Craig "` (trimmed to a key)
and one for `"Nobody, Nancy"` (not a key), the splitter puts the first in
the Darling file, keeps the second out of every file, and produces no file
for `"Huang, Lily"`. -/
theorem claim_C9_witness :
    (("Darling, Craig", [⟨"1", 0, "Darling, Craig"⟩]) : String × List OutRow).1
        ∈ attorneyKeys ∧
      (∀ x ∈ (("Darling, Craig", [(⟨"1", 0, "Darling, Craig"⟩ : OutRow)]) :
          String × List OutRow).2, x.atty = "Darling, Craig") ∧
      ((⟨"1", 0, "Darling, Craig"⟩ : OutRow)
        ≠ { matterNumber := "2", net := 0, atty := cleanAttorney "Nobody, Nancy" }) ∧
      (("Darling, Craig" : String) ≠ "Huang, Lily") := by
  have h := claim_C9 [⟨"1", 0, " Darling, Craig "⟩, ⟨"2", 0, "Nobody, Nancy"⟩]
  have hmem : (("Darling, Craig", [(⟨"1", 0, "Darling, Craig"⟩ : OutRow)]) :
      String × List OutRow) ∈
        splitByAttorney [⟨"1", 0, " Darling, Craig "⟩, ⟨"2", 0, "Nobody, Nancy"⟩] := by
    decide
  refine ⟨(h.1 _ hmem).1, (h.1 _ hmem).2.2, ?_, ?_⟩
  · exact h.2.1 ⟨"2", 0, "Nobody, Nancy"⟩ (by decide) _ hmem _ (by decide)
  · exact h.2.2 "Huang, Lily" (by decide) (by decide) _ hmem

/-! ### Claim C3 -/

/-- C3, counterexample to the claim as stated: the splitter derives no
last-name partition key — it matches the full trimmed name against the
fixed `ATTORNEY_FOLDERS` keys, so `"Darling, Craig"` lands in the
`"Darling, Craig"` file while a row with `"Craig Darling"` matches no key
and lands in no split file: the two name forms of the same person do *not*
share a partition. -/
theorem claim_C3_cex :
    splitByAttorney [⟨"1", 0, "Darling, Craig"⟩, ⟨"2", 0, "Craig Darling"⟩]
        = [("Darling, Craig", [⟨"1", 0, "Darling, Craig"⟩])] ∧
      (∀ e ∈ splitByAttorney [⟨"1", 0, "Darling, Craig"⟩, ⟨"2", 0, "Craig Darling"⟩],
        (⟨"2", 0, "Craig Darling"⟩ : OutRow) ∉ e.2) := by
  refine ⟨by decide, by decide⟩

/-- C3 as amended: partitioning is by exact equality of the whitespace-
trimmed full name with the fixed keys, not by a derived last-name token: no
split file ever contains a row whose attorney reads `"Craig Darling"`, and
a row reading `"Darling, Craig"` can only sit in the `"Darling, Craig"`
file, so the two forms never share a partition. -/
theorem claim_C3 (rows : List OutRow) :
    (∀ e ∈ splitByAttorney rows, ∀ x ∈ e.2, x.atty ≠ "Craig Darling") ∧
    (∀ e ∈ splitByAttorney rows, ∀ x ∈ e.2,
      x.atty = "Darling, Craig" → e.1 = "Darling, Craig") := by
  constructor
  · intro e he x hx hccd
    have hatty : x.atty = e.1 := splitByAttorney_row_atty rows e he x hx
    have hkey : e.1 ∈ attorneyKeys := (splitByAttorney_mem rows e he).1
    rw [hatty] at hccd
    rw [hccd] at hkey
    exact absurd hkey (by decide)
  · intro e he x hx hdc
    rw [← hdc]
    exact (splitByAttorney_row_atty rows e he x hx).symm

/-- C3 witness: in a split of one `"Darling, Craig"` row, that row sits in
a file whose key is `"Darling, Craig"` and no file row reads
`"Craig Darling"`. -/
theorem claim_C3_witness :
    ((⟨"1", 0, "Darling, Craig"⟩ : OutRow).atty ≠ "Craig Darling") ∧
      (("Darling, Craig", [(⟨"1", 0, "Darling, Craig"⟩ : OutRow)]) :
        String × List OutRow).1 = "Darling, Craig" := by
  have h := claim_C3 [⟨"1", 0, "Darling, Craig"⟩]
  have hmem : (("Darling, Craig", [(⟨"1", 0, "Darling, Craig"⟩ : OutRow)]) :
      String × List OutRow) ∈ splitByAttorney [⟨"1", 0, "Darling, Craig"⟩] := by
    decide
  refine ⟨h.1 _ hmem _ (by decide), h.2 _ hmem ⟨"1", 0, "Darling, Craig"⟩ (by decide) rfl⟩

end CaseReview
